import Mathlib

/-!
Formal model of the `wasm-life` repository: a toroidal Game-of-Life engine
(`World` with `step` and `render`) reached through a thin JavaScript handle
wrapper (`src/0.bootstrap.js`).  The engine itself lives in the wasm binary
`wasm_game_of_life_bg.wasm`, which is not part of the visible source, so the
engine is modelled from the specification; the JS handle wrapper (`free`,
`__destroy_into_raw`, pointer passing for `step`/`render`) is embedded from
`src/0.bootstrap.js` directly.
-/

namespace Life

/-- Modelled from the spec: the engine `World` is absent from the JS glue in
`src/0.bootstrap.js` (only its wasm exports are visible).  Per spec section 3 a
World owns `width`, `height` and a row-major ordered sequence `cells` of binary
cell states, with index `row * width + col`. -/
structure World where
  width : Nat
  height : Nat
  cells : List Bool
deriving DecidableEq

/-- Row-major index of a cell, `row * width + col` (spec section 3). -/
def World.getIndex (w : World) (row col : Nat) : Nat :=
  row * w.width + col

/-- State of the cell at `(row, col)`; out-of-range indices read as dead. -/
def World.getCell (w : World) (row col : Nat) : Bool :=
  w.cells.getD (w.getIndex row col) false

/-- Contribution (0 or 1) of the neighbour at row offset `dr` and column
offset `dc`, with toroidal wraparound: the offsets `-1, 0, 1` of the spec are
realised as `height - 1, 0, 1` (resp. `width - 1, 0, 1`) followed by a
reduction modulo `height` (resp. `width`). -/
def World.nbVal (w : World) (row col dr dc : Nat) : Nat :=
  if w.getCell ((row + dr) % w.height) ((col + dc) % w.width) then 1 else 0

/-- Modelled from the spec: number of live cells among the 8 toroidally
adjacent cells of `(row, col)`, offsets in the set of pairs over -1, 0, 1
excluding the pair of zeros, wrapped modulo `height` and `width`. -/
def World.liveNeighborCount (w : World) (row col : Nat) : Nat :=
  w.nbVal row col (w.height - 1) (w.width - 1) +
  w.nbVal row col (w.height - 1) 0 +
  w.nbVal row col (w.height - 1) 1 +
  w.nbVal row col 0 (w.width - 1) +
  w.nbVal row col 0 1 +
  w.nbVal row col 1 (w.width - 1) +
  w.nbVal row col 1 0 +
  w.nbVal row col 1 1

/-- Modelled from the spec: the Game-of-Life transition rule.  The next state
is alive iff (currently alive and the live-neighbour count is 2 or 3) or
(currently dead and the count is exactly 3). -/
def nextCell (alive : Bool) (count : Nat) : Bool :=
  if alive then decide (count = 2 ∨ count = 3) else decide (count = 3)

/-- New state of the cell stored at linear index `idx`, computed entirely from
the previous generation `w`. -/
def World.newCellAt (w : World) (idx : Nat) : Bool :=
  nextCell (w.getCell (idx / w.width) (idx % w.width))
    (w.liveNeighborCount (idx / w.width) (idx % w.width))

/-- Modelled from the spec: the double-buffered update.  A fresh generation is
written cell by cell into the buffer `buf` while every read
(`World.newCellAt`) goes to the immutable previous generation `w`. -/
def World.stepInto (w : World) (buf : List Bool) : List Bool :=
  (List.range (w.width * w.height)).foldl (fun b idx => b.set idx (w.newCellAt idx)) buf

/-- Modelled from the spec: `step` advances the grid by exactly one
generation, replacing `cells` with the newly computed generation while all
neighbour counts read the previous one. -/
def World.step (w : World) : World :=
  { w with cells := w.stepInto w.cells }

/-- Stated from the spec's words for the refinement claim: the pure function
mapping the current grid to the next grid, with no intermediate buffer. -/
def World.stepPure (w : World) : World :=
  { w with cells := (List.range (w.width * w.height)).map w.newCellAt }

/-- `n` successive `step` calls. -/
def World.stepN : Nat → World → World
  | 0, w => w
  | n + 1, w => World.stepN n w.step

/-- Modelled from the spec: the fixed glyph for a live cell. -/
def aliveGlyph : Char := '◼'

/-- Modelled from the spec: the fixed glyph for a dead cell. -/
def deadGlyph : Char := '◻'

/-- One rendered line: exactly `width` characters, one glyph per cell. -/
def World.renderRow (w : World) (row : Nat) : String :=
  String.mk ((List.range w.width).map fun col =>
    if w.getCell row col then aliveGlyph else deadGlyph)

/-- The `height` rendered lines, top to bottom. -/
def World.renderLines (w : World) : List String :=
  (List.range w.height).map w.renderRow

/-- Modelled from the spec: `render` produces `height` lines separated by a
line-feed character with no trailing separator after the final line. -/
def World.render (w : World) : String :=
  String.intercalate "\n" w.renderLines

/-- Modelled from the spec: the deterministic initial seed — a cell is alive
iff its index is nonzero and divisible by 2 or by 3 (spec section 4.1). -/
def seedCell (idx : Nat) : Bool :=
  decide (idx ≠ 0 ∧ (idx % 2 = 0 ∨ idx % 3 = 0))

/-- Grid construction for validated dimensions. -/
def mkWorld (width height : Nat) : World :=
  { width := width, height := height
    cells := (List.range (width * height)).map seedCell }

/-- Modelled from the spec: construction validates the dimensions — it fails
exactly when a dimension is zero or negative or when `width * height`
overflows the 32-bit index type, and otherwise yields a fully initialised
World (spec sections 4.1 and 7). -/
def create (width height : Int) : Option World :=
  if width ≤ 0 ∨ height ≤ 0 ∨ 2 ^ 32 ≤ width * height then none
  else some (mkWorld width.toNat height.toNat)

/-- Modelled from the spec: the zero-argument factory exported to JS uses the
classical default dimensions 64 by 64. -/
def wasm_create : World := mkWorld 64 64

/-- A World holding exactly a horizontal 3-cell line in row `r`, columns
`c - 1`, `c`, `c + 1`, every other cell dead. -/
def blinkerH (ht wd r c : Nat) : World :=
  ⟨wd, ht, (List.range (wd * ht)).map fun idx =>
    decide (idx / wd = r ∧ (idx % wd = c - 1 ∨ idx % wd = c ∨ idx % wd = c + 1))⟩

/-- A World holding exactly a vertical 3-cell line in column `c`, rows
`r - 1`, `r`, `r + 1`, every other cell dead. -/
def blinkerV (ht wd r c : Nat) : World :=
  ⟨wd, ht, (List.range (wd * ht)).map fun idx =>
    decide (idx % wd = c ∧ (idx / wd = r - 1 ∨ idx / wd = r ∨ idx / wd = r + 1))⟩

/-- The 3 by 3 World whose only live cell sits at row 0, column 0. -/
def world3 : World :=
  ⟨3, 3, [true, false, false, false, false, false, false, false, false]⟩

/-- The 2 by 2 World with cells alive, dead, dead, alive. -/
def world22 : World :=
  ⟨2, 2, [true, false, false, true]⟩

/-- State-passing view of `render` for the frame claim: the operation returns
the rendered text together with the (unchanged) World. -/
def World.renderOp (w : World) : String × World :=
  (w.render, w)

/-- State-passing view of `step`: no textual result, a new grid state. -/
def World.stepOp (w : World) : Unit × World :=
  ((), w.step)

end Life

namespace Glue

/-- The JS `World` handle class of `src/0.bootstrap.js`: a wrapper object
holding the raw wasm pointer in its `ptr` field. -/
structure World where
  ptr : Nat
deriving DecidableEq

/-- Embedded from `src/0.bootstrap.js`: `__destroy_into_raw` reads `this.ptr`,
then sets `this.ptr = 0`, and returns the old pointer.  The first component is
the returned pointer, the second the updated handle. -/
def World.destroyIntoRaw (w : World) : Nat × World :=
  (w.ptr, { w with ptr := 0 })

/-- Embedded from `src/0.bootstrap.js`: `free` first runs
`__destroy_into_raw` and only then passes the returned pointer to
`wasm.__wbg_world_free`.  The first component is the pointer released to the
wasm allocator, the second the handle afterwards. -/
def World.free (w : World) : Nat × World :=
  let p := w.destroyIntoRaw
  (p.1, p.2)

/-- Embedded from `src/0.bootstrap.js`: `step()` calls
`wasm.world_step(this.ptr)`; the value passed for the handle is `this.ptr`. -/
def World.stepPtr (w : World) : Nat :=
  w.ptr

/-- Embedded from `src/0.bootstrap.js`: `render()` calls
`wasm.world_render(retptr, this.ptr)`; the World pointer passed is
`this.ptr`. -/
def World.renderPtr (w : World) : Nat :=
  w.ptr

end Glue

namespace Life

lemma getD_map_range {α : Type} (f : Nat → α) (d : α) {i n : Nat} (h : i < n) :
    ((List.range n).map f).getD i d = f i := by
  have hlen : i < ((List.range n).map f).length := by simpa using h
  rw [List.getD_eq_getElem _ _ hlen, List.getElem_map]
  simp

lemma foldl_set_range (f : Nat → Bool) (k : Nat) :
    ∀ buf : List Bool, k ≤ buf.length →
      (List.range k).foldl (fun b idx => b.set idx (f idx)) buf
        = (List.range k).map f ++ buf.drop k := by
  induction k with
  | zero => intro buf _; simp
  | succ k ih =>
    intro buf h
    rw [List.range_succ, List.foldl_append, ih buf (by omega)]
    simp only [List.foldl_cons, List.foldl_nil, List.map_append, List.map_cons,
      List.map_nil]
    rw [List.set_append, if_neg (by simp)]
    have hlen : ((List.range k).map f).length = k := by simp
    have hdrop : buf.drop k = buf[k] :: buf.drop (k + 1) :=
      (List.getElem_cons_drop buf k (by omega)).symm
    rw [hlen, hdrop, Nat.sub_self, List.set_cons_zero]
    simp

lemma length_foldl_set (f : Nat → Bool) (l : List Nat) :
    ∀ buf : List Bool, (l.foldl (fun b idx => b.set idx (f idx)) buf).length = buf.length := by
  induction l with
  | nil => intro buf; rfl
  | cons a t ih => intro buf; rw [List.foldl_cons, ih, List.length_set]

lemma stepInto_eq (w : World) (buf : List Bool) (h : buf.length = w.width * w.height) :
    w.stepInto buf = (List.range (w.width * w.height)).map w.newCellAt := by
  unfold World.stepInto
  rw [foldl_set_range w.newCellAt (w.width * w.height) buf (by omega), ← h,
    List.drop_length, List.append_nil]

lemma index_lt {row col wd ht : Nat} (hr : row < ht) (hc : col < wd) :
    row * wd + col < wd * ht := by
  have h1 : (row + 1) * wd ≤ ht * wd := Nat.mul_le_mul_right wd hr
  have h2 : (row + 1) * wd = row * wd + wd := by ring
  have h3 : ht * wd = wd * ht := Nat.mul_comm ht wd
  omega

lemma index_div {row col wd : Nat} (hc : col < wd) : (row * wd + col) / wd = row := by
  rw [Nat.mul_comm row wd, Nat.mul_add_div (by omega), Nat.div_eq_of_lt hc, Nat.add_zero]

lemma index_mod {row col wd : Nat} (hc : col < wd) : (row * wd + col) % wd = col := by
  rw [Nat.mul_comm row wd, Nat.mul_add_mod, Nat.mod_eq_of_lt hc]

lemma getCell_map_range (wd ht : Nat) (f : Nat → Bool) {row col : Nat}
    (hr : row < ht) (hc : col < wd) :
    World.getCell ⟨wd, ht, (List.range (wd * ht)).map f⟩ row col = f (row * wd + col) := by
  unfold World.getCell World.getIndex
  exact getD_map_range f false (index_lt hr hc)

lemma getCell_step (w : World) (h : w.cells.length = w.width * w.height)
    {row col : Nat} (hr : row < w.height) (hc : col < w.width) :
    w.step.getCell row col = nextCell (w.getCell row col) (w.liveNeighborCount row col) := by
  have e : w.step.getCell row col = w.newCellAt (row * w.width + col) := by
    show (w.stepInto w.cells).getD (row * w.width + col) false = _
    rw [stepInto_eq w w.cells h]
    exact getD_map_range _ false (index_lt hr hc)
  rw [e]
  unfold World.newCellAt
  rw [index_div hc, index_mod hc]

end Life

namespace Life

lemma mod_pred {a m : Nat} (h : a < m) :
    (a + (m - 1)) % m = if a = 0 then m - 1 else a - 1 := by
  split_ifs with h0
  · subst h0
    rw [Nat.zero_add]
    exact Nat.mod_eq_of_lt (by omega)
  · have e : a + (m - 1) = (a - 1) + 1 * m := by omega
    rw [e, Nat.add_mul_mod_self_right]
    exact Nat.mod_eq_of_lt (by omega)

lemma mod_succ {a m : Nat} (h : a < m) :
    (a + 1) % m = if a + 1 = m then 0 else a + 1 := by
  split_ifs with h0
  · rw [h0, Nat.mod_self]
  · exact Nat.mod_eq_of_lt (by omega)

lemma pred_eq_iff {a m t : Nat} (ha : a < m) (h1 : 1 ≤ t) (h2 : t + 1 < m) :
    (a + (m - 1)) % m = t ↔ a = t + 1 := by
  rw [mod_pred ha]
  split_ifs <;> omega

lemma succ_eq_iff {a m t : Nat} (ha : a < m) (h1 : 1 ≤ t) (h2 : t < m) :
    (a + 1) % m = t ↔ a + 1 = t := by
  rw [mod_succ ha]
  split_ifs <;> omega

lemma nextCell_true_iff (alive : Bool) (n : Nat) :
    nextCell alive n = true
      ↔ ((alive = true ∧ (n = 2 ∨ n = 3)) ∨ (¬ alive = true ∧ n = 3)) := by
  cases alive <;> simp [nextCell]

lemma blinkerH_width (ht wd r c : Nat) : (blinkerH ht wd r c).width = wd := rfl

lemma blinkerH_height (ht wd r c : Nat) : (blinkerH ht wd r c).height = ht := rfl

lemma blinkerV_width (ht wd r c : Nat) : (blinkerV ht wd r c).width = wd := rfl

lemma blinkerV_height (ht wd r c : Nat) : (blinkerV ht wd r c).height = ht := rfl

lemma getCell_blinkerH_iff {ht wd r c a b : Nat} (ha : a < ht) (hb : b < wd) :
    ((blinkerH ht wd r c).getCell a b = true)
      ↔ (a = r ∧ (b = c - 1 ∨ b = c ∨ b = c + 1)) := by
  unfold blinkerH
  rw [getCell_map_range wd ht _ ha hb, decide_eq_true_eq, index_div hb, index_mod hb]

lemma getCell_blinkerV_iff {ht wd r c a b : Nat} (ha : a < ht) (hb : b < wd) :
    ((blinkerV ht wd r c).getCell a b = true)
      ↔ (b = c ∧ (a = r - 1 ∨ a = r ∨ a = r + 1)) := by
  unfold blinkerV
  rw [getCell_map_range wd ht _ ha hb, decide_eq_true_eq, index_div hb, index_mod hb]

end Life

namespace Life

set_option maxHeartbeats 1000000

lemma step_blinkerH_cell {ht wd r c row col : Nat} (hr : row < ht) (hc : col < wd)
    (h1 : 2 ≤ r) (h2 : r + 2 < ht) (h3 : 2 ≤ c) (h4 : c + 2 < wd) :
    nextCell ((blinkerH ht wd r c).getCell row col)
        ((blinkerH ht wd r c).liveNeighborCount row col)
      = decide (col = c ∧ (row = r - 1 ∨ row = r ∨ row = r + 1)) := by
  have g0 := getCell_blinkerH_iff (r := r) (c := c) hr hc
  have gpp := getCell_blinkerH_iff (r := r) (c := c)
    (Nat.mod_lt (row + (ht - 1)) (y := ht) (by omega)) (Nat.mod_lt (col + (wd - 1)) (y := wd) (by omega))
  have gp0 := getCell_blinkerH_iff (r := r) (c := c)
    (Nat.mod_lt (row + (ht - 1)) (y := ht) (by omega)) hc
  have gps := getCell_blinkerH_iff (r := r) (c := c)
    (Nat.mod_lt (row + (ht - 1)) (y := ht) (by omega)) (Nat.mod_lt (col + 1) (y := wd) (by omega))
  have g0p := getCell_blinkerH_iff (r := r) (c := c) hr (Nat.mod_lt (col + (wd - 1)) (y := wd) (by omega))
  have g0s := getCell_blinkerH_iff (r := r) (c := c) hr (Nat.mod_lt (col + 1) (y := wd) (by omega))
  have gsp := getCell_blinkerH_iff (r := r) (c := c)
    (Nat.mod_lt (row + 1) (y := ht) (by omega)) (Nat.mod_lt (col + (wd - 1)) (y := wd) (by omega))
  have gs0 := getCell_blinkerH_iff (r := r) (c := c) (Nat.mod_lt (row + 1) (y := ht) (by omega)) hc
  have gss := getCell_blinkerH_iff (r := r) (c := c)
    (Nat.mod_lt (row + 1) (y := ht) (by omega)) (Nat.mod_lt (col + 1) (y := wd) (by omega))
  have pr : (row + (ht - 1)) % ht = r ↔ row = r + 1 := pred_eq_iff hr (by omega) (by omega)
  have sr : (row + 1) % ht = r ↔ row + 1 = r := succ_eq_iff hr (by omega) (by omega)
  have mr : row % ht = row := Nat.mod_eq_of_lt hr
  have mc : col % wd = col := Nat.mod_eq_of_lt hc
  have pc1 : (col + (wd - 1)) % wd = c - 1 ↔ col = c - 1 + 1 :=
    pred_eq_iff hc (by omega) (by omega)
  have pc2 : (col + (wd - 1)) % wd = c ↔ col = c + 1 := pred_eq_iff hc (by omega) (by omega)
  have pc3 : (col + (wd - 1)) % wd = c + 1 ↔ col = c + 1 + 1 :=
    pred_eq_iff hc (by omega) (by omega)
  have sc1 : (col + 1) % wd = c - 1 ↔ col + 1 = c - 1 := succ_eq_iff hc (by omega) (by omega)
  have sc2 : (col + 1) % wd = c ↔ col + 1 = c := succ_eq_iff hc (by omega) (by omega)
  have sc3 : (col + 1) % wd = c + 1 ↔ col + 1 = c + 1 := succ_eq_iff hc (by omega) (by omega)
  rw [Bool.eq_iff_iff, nextCell_true_iff, decide_eq_true_eq]
  simp only [World.liveNeighborCount, World.nbVal, blinkerH_width, blinkerH_height,
    Nat.add_zero, g0, gpp, gp0, gps, g0p, g0s, gsp, gs0, gss, pr, sr, mr, mc,
    pc1, pc2, pc3, sc1, sc2, sc3]
  split_ifs <;> omega

end Life

namespace Life

set_option maxHeartbeats 1000000

lemma step_blinkerV_cell {ht wd r c row col : Nat} (hr : row < ht) (hc : col < wd)
    (h1 : 2 ≤ r) (h2 : r + 2 < ht) (h3 : 2 ≤ c) (h4 : c + 2 < wd) :
    nextCell ((blinkerV ht wd r c).getCell row col)
        ((blinkerV ht wd r c).liveNeighborCount row col)
      = decide (row = r ∧ (col = c - 1 ∨ col = c ∨ col = c + 1)) := by
  have g0 := getCell_blinkerV_iff (r := r) (c := c) hr hc
  have gpp := getCell_blinkerV_iff (r := r) (c := c)
    (Nat.mod_lt (row + (ht - 1)) (y := ht) (by omega)) (Nat.mod_lt (col + (wd - 1)) (y := wd) (by omega))
  have gp0 := getCell_blinkerV_iff (r := r) (c := c)
    (Nat.mod_lt (row + (ht - 1)) (y := ht) (by omega)) hc
  have gps := getCell_blinkerV_iff (r := r) (c := c)
    (Nat.mod_lt (row + (ht - 1)) (y := ht) (by omega)) (Nat.mod_lt (col + 1) (y := wd) (by omega))
  have g0p := getCell_blinkerV_iff (r := r) (c := c) hr (Nat.mod_lt (col + (wd - 1)) (y := wd) (by omega))
  have g0s := getCell_blinkerV_iff (r := r) (c := c) hr (Nat.mod_lt (col + 1) (y := wd) (by omega))
  have gsp := getCell_blinkerV_iff (r := r) (c := c)
    (Nat.mod_lt (row + 1) (y := ht) (by omega)) (Nat.mod_lt (col + (wd - 1)) (y := wd) (by omega))
  have gs0 := getCell_blinkerV_iff (r := r) (c := c) (Nat.mod_lt (row + 1) (y := ht) (by omega)) hc
  have gss := getCell_blinkerV_iff (r := r) (c := c)
    (Nat.mod_lt (row + 1) (y := ht) (by omega)) (Nat.mod_lt (col + 1) (y := wd) (by omega))
  have pr1 : (row + (ht - 1)) % ht = r - 1 ↔ row = r - 1 + 1 :=
    pred_eq_iff hr (by omega) (by omega)
  have pr2 : (row + (ht - 1)) % ht = r ↔ row = r + 1 := pred_eq_iff hr (by omega) (by omega)
  have pr3 : (row + (ht - 1)) % ht = r + 1 ↔ row = r + 1 + 1 :=
    pred_eq_iff hr (by omega) (by omega)
  have sr1 : (row + 1) % ht = r - 1 ↔ row + 1 = r - 1 := succ_eq_iff hr (by omega) (by omega)
  have sr2 : (row + 1) % ht = r ↔ row + 1 = r := succ_eq_iff hr (by omega) (by omega)
  have sr3 : (row + 1) % ht = r + 1 ↔ row + 1 = r + 1 := succ_eq_iff hr (by omega) (by omega)
  have mr : row % ht = row := Nat.mod_eq_of_lt hr
  have mc : col % wd = col := Nat.mod_eq_of_lt hc
  have pc : (col + (wd - 1)) % wd = c ↔ col = c + 1 := pred_eq_iff hc (by omega) (by omega)
  have sc : (col + 1) % wd = c ↔ col + 1 = c := succ_eq_iff hc (by omega) (by omega)
  rw [Bool.eq_iff_iff, nextCell_true_iff, decide_eq_true_eq]
  simp only [World.liveNeighborCount, World.nbVal, blinkerV_width, blinkerV_height,
    Nat.add_zero, g0, gpp, gp0, gps, g0p, g0s, gsp, gs0, gss, pr1, pr2, pr3,
    sr1, sr2, sr3, mr, mc, pc, sc]
  split_ifs <;> omega

lemma step_blinkerH (ht wd r c : Nat) (h1 : 2 ≤ r) (h2 : r + 2 < ht)
    (h3 : 2 ≤ c) (h4 : c + 2 < wd) :
    (blinkerH ht wd r c).step = blinkerV ht wd r c := by
  have hwd : 0 < wd := by omega
  have hcells : (blinkerH ht wd r c).stepInto (blinkerH ht wd r c).cells
      = (List.range (wd * ht)).map (fun idx =>
          decide (idx % wd = c ∧ (idx / wd = r - 1 ∨ idx / wd = r ∨ idx / wd = r + 1))) := by
    rw [stepInto_eq _ _ (by simp [blinkerH])]
    simp only [blinkerH_width, blinkerH_height]
    apply List.map_congr_left
    intro idx hidx
    have hidx' : idx < wd * ht := List.mem_range.mp hidx
    have hr' : idx / wd < ht := Nat.div_lt_of_lt_mul (by omega)
    have hc' : idx % wd < wd := Nat.mod_lt idx hwd
    simp only [World.newCellAt, blinkerH_width]
    exact step_blinkerH_cell hr' hc' h1 h2 h3 h4
  calc (blinkerH ht wd r c).step
      = World.mk wd ht ((blinkerH ht wd r c).stepInto (blinkerH ht wd r c).cells) := rfl
    _ = blinkerV ht wd r c := by rw [hcells]; rfl

lemma step_blinkerV (ht wd r c : Nat) (h1 : 2 ≤ r) (h2 : r + 2 < ht)
    (h3 : 2 ≤ c) (h4 : c + 2 < wd) :
    (blinkerV ht wd r c).step = blinkerH ht wd r c := by
  have hwd : 0 < wd := by omega
  have hcells : (blinkerV ht wd r c).stepInto (blinkerV ht wd r c).cells
      = (List.range (wd * ht)).map (fun idx =>
          decide (idx / wd = r ∧ (idx % wd = c - 1 ∨ idx % wd = c ∨ idx % wd = c + 1))) := by
    rw [stepInto_eq _ _ (by simp [blinkerV])]
    simp only [blinkerV_width, blinkerV_height]
    apply List.map_congr_left
    intro idx hidx
    have hidx' : idx < wd * ht := List.mem_range.mp hidx
    have hr' : idx / wd < ht := Nat.div_lt_of_lt_mul (by omega)
    have hc' : idx % wd < wd := Nat.mod_lt idx hwd
    simp only [World.newCellAt, blinkerV_width]
    exact step_blinkerV_cell hr' hc' h1 h2 h3 h4
  calc (blinkerV ht wd r c).step
      = World.mk wd ht ((blinkerV ht wd r c).stepInto (blinkerV ht wd r c).cells) := rfl
    _ = blinkerH ht wd r c := by rw [hcells]; rfl

end Life

namespace Life

lemma step_width (w : World) : w.step.width = w.width := rfl

lemma step_height (w : World) : w.step.height = w.height := rfl

lemma step_cells_length (w : World) : w.step.cells.length = w.cells.length :=
  length_foldl_set w.newCellAt (List.range (w.width * w.height)) w.cells

lemma stepN_width (n : Nat) : ∀ w : World, (World.stepN n w).width = w.width := by
  induction n with
  | zero => intro w; rfl
  | succ n ih => intro w; rw [World.stepN, ih w.step, step_width]

lemma stepN_height (n : Nat) : ∀ w : World, (World.stepN n w).height = w.height := by
  induction n with
  | zero => intro w; rfl
  | succ n ih => intro w; rw [World.stepN, ih w.step, step_height]

lemma stepN_cells_length (n : Nat) :
    ∀ w : World, (World.stepN n w).cells.length = w.cells.length := by
  induction n with
  | zero => intro w; rfl
  | succ n ih => intro w; rw [World.stepN, ih w.step, step_cells_length]

lemma renderLines_length (w : World) : w.renderLines.length = w.height := by
  simp [World.renderLines]

lemma renderRow_length (w : World) (row : Nat) : (w.renderRow row).length = w.width := by
  simp [World.renderRow, String.length]

lemma newline_not_mem_renderRow (w : World) (row : Nat) : '\n' ∉ (w.renderRow row).data := by
  intro hmem
  have hmem' : '\n' ∈ (List.range w.width).map fun col =>
      if w.getCell row col then aliveGlyph else deadGlyph := hmem
  rw [List.mem_map] at hmem'
  obtain ⟨col, _, hc⟩ := hmem'
  by_cases hcell : w.getCell row col
  · rw [if_pos hcell] at hc
    exact absurd hc (by decide)
  · rw [if_neg hcell] at hc
    exact absurd hc (by decide)

lemma mem_renderLines {w : World} {s : String} (h : s ∈ w.renderLines) :
    ∃ row, row < w.height ∧ s = w.renderRow row := by
  rw [World.renderLines, List.mem_map] at h
  obtain ⟨row, hrow, hs⟩ := h
  exact ⟨row, List.mem_range.mp hrow, hs.symm⟩

lemma renderRow_getD (w : World) {row col : Nat} (hc : col < w.width) :
    (w.renderRow row).data.getD col deadGlyph
      = if w.getCell row col then aliveGlyph else deadGlyph :=
  getD_map_range _ deadGlyph hc

end Life

namespace Life

/-- C1: after one `step`, a cell is alive iff (it was alive and its toroidal
live-neighbour count was 2 or 3) or (it was dead and that count was exactly
3); otherwise it is dead. -/
theorem step_rule_correct (w : World) (h : w.cells.length = w.width * w.height)
    {row col : Nat} (hr : row < w.height) (hc : col < w.width) :
    w.step.getCell row col = true
      ↔ ((w.getCell row col = true
            ∧ (w.liveNeighborCount row col = 2 ∨ w.liveNeighborCount row col = 3))
        ∨ (w.getCell row col = false ∧ w.liveNeighborCount row col = 3)) := by
  rw [getCell_step w h hr hc, nextCell_true_iff]
  simp [Bool.not_eq_true]

/-- Witness for C1: the 3 by 3 single-live-cell World at cell (1, 1). -/
theorem step_rule_correct_witness :
    world3.cells.length = world3.width * world3.height ∧
      (world3.step.getCell 1 1 = true
        ↔ ((world3.getCell 1 1 = true
              ∧ (world3.liveNeighborCount 1 1 = 2 ∨ world3.liveNeighborCount 1 1 = 3))
          ∨ (world3.getCell 1 1 = false ∧ world3.liveNeighborCount 1 1 = 3))) :=
  ⟨by decide, step_rule_correct world3 (by decide) (by decide) (by decide)⟩

/-- C2: the buffered in-place step is extensionally equal to the pure function
from the current grid to the next grid: every new cell state is computed from
the previous generation only. -/
theorem step_eq_stepPure (w : World) (h : w.cells.length = w.width * w.height) :
    w.step = w.stepPure := by
  show World.mk w.width w.height (w.stepInto w.cells) = w.stepPure
  rw [stepInto_eq w w.cells h]
  rfl

/-- Witness for C2: the 2 by 2 World with diagonal live cells. -/
theorem step_eq_stepPure_witness :
    world22.cells.length = world22.width * world22.height
      ∧ world22.step = world22.stepPure :=
  ⟨by decide, step_eq_stepPure world22 (by decide)⟩

/-- C3: on the 3 by 3 World whose only live cell is at (0, 0), that cell
contributes count 1 to the live-neighbour count of every cell of row 2 and of
column 2 (toroidal wraparound), contributes nothing to its own count, and one
`step` (which kills the lone cell) uses exactly these wrapped counts. -/
theorem wraparound_contribution :
    world3.liveNeighborCount 2 0 = 1 ∧ world3.liveNeighborCount 2 1 = 1
      ∧ world3.liveNeighborCount 2 2 = 1 ∧ world3.liveNeighborCount 0 2 = 1
      ∧ world3.liveNeighborCount 1 2 = 1 ∧ world3.liveNeighborCount 0 0 = 0
      ∧ world3.step = ⟨3, 3, List.replicate 9 false⟩ := by
  decide

/-- C4: `render` is the `height` rendered lines joined by a single line feed
with no trailing separator; each line has exactly `width` characters, none of
them a line feed; each character is the fixed glyph of its cell, and the two
glyphs are distinct. -/
theorem render_format (w : World) :
    w.render = String.intercalate "\n" w.renderLines
      ∧ w.renderLines.length = w.height
      ∧ (∀ s ∈ w.renderLines, s.length = w.width ∧ '\n' ∉ s.data)
      ∧ (∀ row col, row < w.height → col < w.width →
          (w.renderRow row).data.getD col deadGlyph
            = if w.getCell row col then aliveGlyph else deadGlyph)
      ∧ aliveGlyph ≠ deadGlyph := by
  refine ⟨rfl, renderLines_length w, ?_, ?_, by decide⟩
  · intro s hs
    obtain ⟨row, _, rfl⟩ := mem_renderLines hs
    exact ⟨renderRow_length w row, newline_not_mem_renderRow w row⟩
  · intro row col _ hc
    exact renderRow_getD w hc

/-- Witness for C4: the 2 by 2 World with cells alive, dead, dead, alive. -/
theorem render_format_witness :
    (0 < world22.height ∧ 1 < world22.width) ∧
      (world22.renderRow 0).data.getD 1 deadGlyph
        = if world22.getCell 0 1 then aliveGlyph else deadGlyph :=
  ⟨⟨by decide, by decide⟩, (render_format world22).2.2.2.1 0 1 (by decide) (by decide)⟩

/-- C5: `width` and `height` are fixed and the invariant
`cells.length = width * height` is preserved by every number of `step` calls,
so `render` keeps producing `height` lines of `width` characters. -/
theorem dimension_invariant (w : World) (h : w.cells.length = w.width * w.height) (n : Nat) :
    (World.stepN n w).width = w.width
      ∧ (World.stepN n w).height = w.height
      ∧ (World.stepN n w).cells.length
          = (World.stepN n w).width * (World.stepN n w).height
      ∧ (World.stepN n w).renderLines.length = w.height
      ∧ ∀ s ∈ (World.stepN n w).renderLines, s.length = w.width := by
  refine ⟨stepN_width n w, stepN_height n w, ?_, ?_, ?_⟩
  · rw [stepN_cells_length n w, stepN_width n w, stepN_height n w]
    exact h
  · rw [renderLines_length, stepN_height n w]
  · intro s hs
    obtain ⟨row, _, rfl⟩ := mem_renderLines hs
    rw [renderRow_length, stepN_width n w]

/-- Witness for C5: 100 successive steps on the 2 by 2 World. -/
theorem dimension_invariant_witness :
    world22.cells.length = world22.width * world22.height
      ∧ (World.stepN 100 world22).renderLines.length = world22.height :=
  ⟨by decide, (dimension_invariant world22 (by decide) 100).2.2.2.1⟩

/-- C6: construction is deterministic — two Worlds created with identical
dimensions are equal, so their `render` outputs are identical before any
`step`. -/
theorem create_deterministic (wd ht : Int) (w1 w2 : World)
    (h1 : create wd ht = some w1) (h2 : create wd ht = some w2) :
    w1 = w2 ∧ w1.render = w2.render := by
  have e : w1 = w2 := Option.some.inj (h1.symm.trans h2)
  exact ⟨e, by rw [e]⟩

/-- Witness for C6: two constructions with dimensions 2 by 2. -/
theorem create_deterministic_witness :
    create 2 2 = some (mkWorld 2 2)
      ∧ (mkWorld 2 2 = mkWorld 2 2 ∧ (mkWorld 2 2).render = (mkWorld 2 2).render) :=
  ⟨by decide, create_deterministic 2 2 (mkWorld 2 2) (mkWorld 2 2) (by decide) (by decide)⟩

/-- C7: a World holding exactly a 3-cell horizontal line far from wraparound
becomes the 3-cell vertical line after one `step` and returns to the original
horizontal line after two: the blinker has period 2. -/
theorem blinker_period_two (ht wd r c : Nat) (h1 : 2 ≤ r) (h2 : r + 2 < ht)
    (h3 : 2 ≤ c) (h4 : c + 2 < wd) :
    (blinkerH ht wd r c).step = blinkerV ht wd r c
      ∧ ((blinkerH ht wd r c).step).step = blinkerH ht wd r c := by
  refine ⟨step_blinkerH ht wd r c h1 h2 h3 h4, ?_⟩
  rw [step_blinkerH ht wd r c h1 h2 h3 h4]
  exact step_blinkerV ht wd r c h1 h2 h3 h4

/-- Witness for C7: the blinker at row 2, column 2 of a 6 by 6 World. -/
theorem blinker_period_two_witness :
    (2 ≤ 2 ∧ 2 + 2 < 6) ∧
      ((blinkerH 6 6 2 2).step = blinkerV 6 6 2 2
        ∧ ((blinkerH 6 6 2 2).step).step = blinkerH 6 6 2 2) :=
  ⟨⟨by decide, by decide⟩,
    blinker_period_two 6 6 2 2 (by decide) (by decide) (by decide) (by decide)⟩

/-- C8: `render` is read-only — the render operation leaves cells, width and
height unchanged, while `step` is the operation that replaces the grid. -/
theorem render_read_only (w : World) :
    (w.renderOp).2 = w ∧ (w.renderOp).2.cells = w.cells
      ∧ (w.renderOp).2.width = w.width ∧ (w.renderOp).2.height = w.height
      ∧ (w.stepOp).2 = w.step :=
  ⟨rfl, rfl, rfl, rfl, rfl⟩

/-- C9: construction fails exactly on invalid dimensions (zero or negative
dimension, or `width * height` overflowing the 32-bit index type), and any
successful construction yields a fully initialised World whose invariant holds
and whose `step` and `render` keep their guarantees. -/
theorem create_validates (wd ht : Int) :
    (create wd ht = none ↔ (wd ≤ 0 ∨ ht ≤ 0 ∨ 2 ^ 32 ≤ wd * ht))
      ∧ (∀ w, create wd ht = some w →
          w.width = wd.toNat ∧ w.height = ht.toNat
            ∧ w.cells.length = w.width * w.height
            ∧ w.step.cells.length = w.step.width * w.step.height
            ∧ w.renderLines.length = w.height) := by
  constructor
  · unfold create
    split_ifs with hbad
    · exact iff_of_true rfl hbad
    · exact iff_of_false (by simp) hbad
  · intro w hw
    unfold create at hw
    split_ifs at hw with hbad
    have hw' : w = mkWorld wd.toNat ht.toNat := (Option.some.inj hw).symm
    subst hw'
    have hlen : (mkWorld wd.toNat ht.toNat).cells.length
        = (mkWorld wd.toNat ht.toNat).width * (mkWorld wd.toNat ht.toNat).height := by
      simp [mkWorld]
    refine ⟨rfl, rfl, hlen, ?_, renderLines_length _⟩
    rw [step_cells_length, step_width, step_height]
    exact hlen

/-- Witness for C9: valid dimensions 2 by 2 succeed with the invariant; the
negative pair (-1, 5) is rejected. -/
theorem create_validates_witness :
    create 2 2 = some (mkWorld 2 2)
      ∧ ((mkWorld 2 2).width = (2 : Int).toNat ∧ (mkWorld 2 2).height = (2 : Int).toNat
          ∧ (mkWorld 2 2).cells.length = (mkWorld 2 2).width * (mkWorld 2 2).height
          ∧ (mkWorld 2 2).step.cells.length
              = (mkWorld 2 2).step.width * (mkWorld 2 2).step.height
          ∧ (mkWorld 2 2).renderLines.length = (mkWorld 2 2).height)
      ∧ create (-1) 5 = none :=
  ⟨by decide, (create_validates 2 2).2 (mkWorld 2 2) (by decide),
    (create_validates (-1) 5).1.mpr (by decide)⟩

end Life

namespace Glue

/-- C10: `free` first zeroes the wrapper's `ptr` and only then releases the
old pointer; afterwards `free`, `step` and `render` all pass pointer 0 to the
engine, so the same nonzero pointer is never released twice nor used after
release. -/
theorem free_idempotent_safe (w : World) :
    (w.free).1 = w.ptr
      ∧ (w.free).2.ptr = 0
      ∧ ((w.free).2.free).1 = 0
      ∧ (w.free).2.stepPtr = 0
      ∧ (w.free).2.renderPtr = 0
      ∧ (w.ptr ≠ 0 →
          ((w.free).2.free).1 ≠ w.ptr
            ∧ (w.free).2.stepPtr ≠ w.ptr ∧ (w.free).2.renderPtr ≠ w.ptr) :=
  ⟨rfl, rfl, rfl, rfl, rfl,
    fun h => ⟨fun e => h e.symm, fun e => h e.symm, fun e => h e.symm⟩⟩

/-- Witness for C10: a handle whose pointer is 5. -/
theorem free_idempotent_safe_witness :
    ((World.mk 5).ptr ≠ 0) ∧
      (((World.mk 5).free).2.free).1 ≠ (World.mk 5).ptr
      ∧ ((World.mk 5).free).2.stepPtr ≠ (World.mk 5).ptr :=
  ⟨by decide, ((free_idempotent_safe (World.mk 5)).2.2.2.2.2 (by decide)).1,
    ((free_idempotent_safe (World.mk 5)).2.2.2.2.2 (by decide)).2.1⟩

end Glue
